import Mathlib

/-
Verification of the warehouse agent policies against their specification.

The development shallowly embeds the two decision policies of the repository
(`src/warehouse_agent_reflex.py`: `WarehouseAgentReflex.act` and
`ReflexAgent.decide`; `src/warehouse_agent_greedy.py`:
`GreedyManhattanAgent.decide`) as executable Lean functions.  Python's
`random.choice(l)` is modelled by an explicit random-source parameter
`k : Nat` selecting index `k % l.length`; at most one `random.choice` call
executes on any path through either policy, so a single parameter suffices.
The environment class `WarehouseEnv` is not part of the sources and is
modelled from the specification where the agents consult it.
-/

namespace Warehouse

/-- The closed action vocabulary of the system (spec section 6). -/
inductive Action where
  | N | S | E | W | WAIT | PICK | DROP
  deriving DecidableEq, Repr

/-- Modelled from the spec: `WarehouseEnv.ACTIONS`, the closed action set
{N, S, E, W, WAIT, PICK, DROP} (spec section 6); `warehouse_env.py` is not among
the sources. -/
def ACTIONS : List Action := [.N, .S, .E, .W, .WAIT, .PICK, .DROP]

/-- Modelled from the spec: `WarehouseEnv.MOVE_DELTAS`, the fixed per-direction
(row, col) translation deltas (spec section 4.1).  North decreases the row index,
consistent with the agents' own direction tests (`dropoff[0] < pos[0] -> 'N'`
in `WarehouseAgentReflex.act`).  The source dictionary has only the four
movement keys; other actions are given a zero delta and never looked up. -/
def MOVE_DELTAS : Action → Int × Int
  | .N => (-1, 0)
  | .S => (1, 0)
  | .W => (0, -1)
  | .E => (0, 1)
  | _ => (0, 0)

/-- Modelled from the spec: the part of `WarehouseEnv` state the agents read
directly (grid layout and `start_pos`); `warehouse_env.py` is not among the
sources.  A grid cell holds `true` when it is a wall. -/
structure Env where
  grid : List (List Bool)
  start_pos : Int × Int
  deriving Repr

/-- Modelled from the spec: `WarehouseEnv._is_wall(row, col)`, the boundary-safe
wall predicate that treats any out-of-grid coordinate as a wall
(spec section 4.1). -/
def Env.is_wall (e : Env) (r c : Int) : Bool :=
  if 0 ≤ r ∧ 0 ≤ c then
    match e.grid[r.toNat]? with
    | some row =>
      match row[c.toNat]? with
      | some b => b
      | none => true
    | none => true
  else true

/-- A local window: list of rows of cell symbols, `'#'` marking a wall. -/
abbrev Grid := List (List Char)

/-- The observation dictionary produced by `WarehouseEnv._observe()`, restricted
to the keys the policies read.  `valid_actions` is the optional key consulted
only by `WarehouseAgentReflex.act`. -/
structure Obs where
  robot_pos : Int × Int
  has_item : Bool
  pickup_pos : Option (Int × Int)
  dropoff_pos : Option (Int × Int)
  local_grid : Option Grid
  valid_actions : Option (List Action)
  deriving Repr

/-- Cell lookup in a local window, total with a wall default (the policies only
index inside the window on well-formed observations). -/
def cellAt (g : Grid) (r c : Nat) : Char := (g.getD r []).getD c '#'

/-- Model of `random.choice`: the random source `k` selects index
`k % l.length`; `none` on the empty list (the sources always guard the call). -/
def randChoice (k : Nat) (l : List α) : Option α := l[k % l.length]?

/-- Manhattan distance between two integer grid coordinates. -/
def manhattan (p q : Int × Int) : Nat := (p.1 - q.1).natAbs + (p.2 - q.2).natAbs

/-- `ReflexAgent._get_direction_to_target`'s inner `is_blocked`: a candidate
direction is blocked when its window cell is out of the window's bounds or holds
`'#'` (`warehouse_agent_reflex.py`, lines 154-156, with the `direction_map` of
lines 146-151). -/
def ReflexAgent.is_blocked (g : Grid) (d : Action) : Bool :=
  let n : Int := (g.length : Int)
  let center : Int := (g.length : Int) / 2
  let rc : Int × Int :=
    match d with
    | .N => (center - 1, center)
    | .S => (center + 1, center)
    | .W => (center, center - 1)
    | _ => (center, center + 1)
  decide (rc.1 < 0) || decide (rc.1 ≥ n) || decide (rc.2 < 0) ||
    decide (rc.2 ≥ ((g.headD []).length : Int)) ||
    decide (cellAt g rc.1.toNat rc.2.toNat = '#')

/-- Python's `max(l, key=snd)`: the first element attaining the maximal second
component (`max` keeps the earlier element on ties). -/
def pyMaxBySnd (l : List (Action × Nat)) : Option (Action × Nat) :=
  match l with
  | [] => none
  | x :: xs => some (xs.foldl (fun b y => if y.2 > b.2 then y else b) x)

/-- `ReflexAgent._get_direction_to_target` (`warehouse_agent_reflex.py`,
lines 121-193). -/
def ReflexAgent.getDirectionToTarget (current target : Int × Int) (g : Grid)
    (k : Nat) : Option Action :=
  let dr := target.1 - current.1
  let dc := target.2 - current.2
  if dr = 0 ∧ dc = 0 then none
  else
    let primary : List (Action × Nat) :=
      (if dr < 0 ∧ ReflexAgent.is_blocked g .N = false then [(.N, 2)] else []) ++
      (if dr > 0 ∧ ReflexAgent.is_blocked g .S = false then [(.S, 2)] else []) ++
      (if dc < 0 ∧ ReflexAgent.is_blocked g .W = false then [(.W, 2)] else []) ++
      (if dc > 0 ∧ ReflexAgent.is_blocked g .E = false then [(.E, 2)] else [])
    if primary ≠ [] then (pyMaxBySnd primary).map Prod.fst
    else
      let secondary : List (Action × Nat) :=
        (if dc < 0 ∧ ReflexAgent.is_blocked g .W = false then [(.W, 1)] else []) ++
        (if dc > 0 ∧ ReflexAgent.is_blocked g .E = false then [(.E, 1)] else []) ++
        (if dr < 0 ∧ ReflexAgent.is_blocked g .N = false then [(.N, 1)] else []) ++
        (if dr > 0 ∧ ReflexAgent.is_blocked g .S = false then [(.S, 1)] else [])
      if secondary ≠ [] then (randChoice k secondary).map Prod.fst
      else
        let valid_moves :=
          [Action.N, .S, .E, .W].filter fun d => !(ReflexAgent.is_blocked g d)
        if valid_moves ≠ [] then randChoice k valid_moves
        else none

/-- `ReflexAgent._get_valid_moves` (`warehouse_agent_reflex.py`,
lines 195-215): window-unblocked movement directions in order N, S, W, E,
extended with the non-movement actions WAIT, PICK, DROP. -/
def ReflexAgent.getValidMoves (g : Grid) : List Action :=
  let center := g.length / 2
  ((if cellAt g (center - 1) center ≠ '#' then [Action.N] else []) ++
   (if cellAt g (center + 1) center ≠ '#' then [Action.S] else []) ++
   (if cellAt g center (center - 1) ≠ '#' then [Action.W] else []) ++
   (if cellAt g center (center + 1) ≠ '#' then [Action.E] else [])) ++
  [Action.WAIT, .PICK, .DROP]

/-- `ReflexAgent.decide` (`warehouse_agent_reflex.py`, lines 76-119).  The agent
is stateless: the function reads only the observation and the random source. -/
def ReflexAgent.decide (obs : Obs) (k : Nat) : Action :=
  let g := obs.local_grid.getD []
  if obs.pickup_pos = some obs.robot_pos ∧ obs.has_item = false then .PICK
  else if obs.dropoff_pos = some obs.robot_pos ∧ obs.has_item = true then .DROP
  else
    let target_pos := if obs.has_item then obs.dropoff_pos else obs.pickup_pos
    let dir : Option Action :=
      match target_pos with
      | some t => ReflexAgent.getDirectionToTarget obs.robot_pos t g k
      | none => none
    dir.getD
      (let valid_moves := ReflexAgent.getValidMoves g
       if valid_moves ≠ [] then (randChoice k valid_moves).getD .WAIT
       else .WAIT)

/-- `WarehouseAgentReflex.act` (`warehouse_agent_reflex.py`, lines 19-62).
Never reads `local_grid`. -/
def WarehouseAgentReflex.act (state : Obs) (k : Nat) : Action :=
  let pos := state.robot_pos
  let carrying := state.has_item
  let pickup := state.pickup_pos
  let dropoff := state.dropoff_pos
  let valid_actions : List Action :=
    match state.valid_actions with
    | some l => l
    | none => [.N, .E, .S, .W, .WAIT, .PICK, .DROP]
  if pickup = some pos ∧ carrying = false ∧ Action.PICK ∈ valid_actions then
    .PICK
  else if dropoff = some pos ∧ carrying = true ∧ Action.DROP ∈ valid_actions then
    .DROP
  else
    let r3 : Option Action :=
      match dropoff with
      | some t =>
        if carrying = true then
          if t.1 < pos.1 ∧ Action.N ∈ valid_actions then some .N
          else if t.1 > pos.1 ∧ Action.S ∈ valid_actions then some .S
          else if t.2 < pos.2 ∧ Action.W ∈ valid_actions then some .W
          else if t.2 > pos.2 ∧ Action.E ∈ valid_actions then some .E
          else none
        else none
      | none => none
    let r4 : Option Action :=
      match pickup with
      | some t =>
        if carrying = false then
          if t.1 < pos.1 ∧ Action.N ∈ valid_actions then some .N
          else if t.1 > pos.1 ∧ Action.S ∈ valid_actions then some .S
          else if t.2 < pos.2 ∧ Action.W ∈ valid_actions then some .W
          else if t.2 > pos.2 ∧ Action.E ∈ valid_actions then some .E
          else none
        else none
      | none => none
    r3.getD (r4.getD ((randChoice k valid_actions).getD .WAIT))

/-- The greedy agent's mutable state (`warehouse_agent_greedy.py`,
lines 24-30): the environment handle, the deque capacity, the escape duration,
the visit history (oldest first) and the remaining escape steps. -/
structure GreedyManhattanAgent where
  env : Env
  history_len : Nat
  escape_duration : Nat
  history : List (Int × Int)
  escape_steps_remaining : Nat
  deriving Repr

/-- `GreedyManhattanAgent.__init__` (`warehouse_agent_greedy.py`,
lines 24-30): empty history, escape counter zero. -/
def GreedyManhattanAgent.init (env : Env) (history_len escape_steps : Nat) :
    GreedyManhattanAgent :=
  ⟨env, history_len, escape_steps, [], 0⟩

/-- Append to a `collections.deque(maxlen)` holding `l` (oldest first):
the new element goes to the back and oldest entries are evicted from the front
when the capacity is exceeded. -/
def dequeAppend (maxlen : Nat) (l : List α) (x : α) : List α :=
  let l2 := l ++ [x]
  if maxlen < l2.length then l2.drop (l2.length - maxlen) else l2

/-- The `valid` list computed by `GreedyManhattanAgent._random_valid_move`
(`warehouse_agent_greedy.py`, lines 102-130): window-unblocked directions in
order N, S, W, E when the local grid is a non-empty list; if that yields
nothing, environment-unblocked directions in order N, E, S, W from the last
history entry (or `env.start_pos` when the history is empty). -/
def GreedyManhattanAgent.validList (a : GreedyManhattanAgent)
    (local_grid : Option Grid) : List Action :=
  let fromLocal : List Action :=
    match local_grid with
    | some g =>
      if g.length = 0 then []
      else
        let center := g.length / 2
        (if cellAt g (center - 1) center ≠ '#' then [Action.N] else []) ++
        (if cellAt g (center + 1) center ≠ '#' then [Action.S] else []) ++
        (if cellAt g center (center - 1) ≠ '#' then [Action.W] else []) ++
        (if cellAt g center (center + 1) ≠ '#' then [Action.E] else [])
    | none => []
  if fromLocal = [] then
    [Action.N, .E, .S, .W].filter fun m =>
      let rc := a.history.getLastD a.env.start_pos
      !(a.env.is_wall (rc.1 + (MOVE_DELTAS m).1) (rc.2 + (MOVE_DELTAS m).2))
  else fromLocal

/-- `GreedyManhattanAgent._random_valid_move` (`warehouse_agent_greedy.py`,
lines 102-130): a uniformly random element of the valid list, `None` when it is
empty. -/
def GreedyManhattanAgent.randomValidMove (a : GreedyManhattanAgent)
    (local_grid : Option Grid) (k : Nat) : Option Action :=
  randChoice k (a.validList local_grid)

/-- One iteration of the best-move loop of `GreedyManhattanAgent.decide`
(`warehouse_agent_greedy.py`, lines 77-88): skip moves into walls per
`env._is_wall`; a strictly smaller distance restarts the candidate list, a tie
with the best distance extends it when that distance improves on `cur`. -/
def greedyStep (e : Env) (robot goal : Int × Int) (cur : Nat)
    (acc : Nat × List Action) (m : Action) : Nat × List Action :=
  if e.is_wall (robot.1 + (MOVE_DELTAS m).1) (robot.2 + (MOVE_DELTAS m).2) then
    acc
  else if manhattan (robot.1 + (MOVE_DELTAS m).1, robot.2 + (MOVE_DELTAS m).2)
      goal < acc.1 then
    (manhattan (robot.1 + (MOVE_DELTAS m).1, robot.2 + (MOVE_DELTAS m).2) goal,
      [m])
  else if manhattan (robot.1 + (MOVE_DELTAS m).1, robot.2 + (MOVE_DELTAS m).2)
        goal = acc.1 ∧
      manhattan (robot.1 + (MOVE_DELTAS m).1, robot.2 + (MOVE_DELTAS m).2)
        goal < cur then
    (acc.1, acc.2 ++ [m])
  else acc

/-- The `best_moves` list of `GreedyManhattanAgent.decide`
(`warehouse_agent_greedy.py`, lines 74-88), folding the loop body over the
move order N, E, S, W starting from the current distance and no candidates. -/
def bestMoves (e : Env) (robot goal : Int × Int) : List Action :=
  ([Action.N, .E, .S, .W].foldl
    (greedyStep e robot goal (manhattan robot goal))
    (manhattan robot goal, [])).2

/-- The goal-seeking tail of `GreedyManhattanAgent.decide`
(`warehouse_agent_greedy.py`, lines 56-100), executed with the already-updated
history: PICK and DROP rules, the distance-greedy choice, and the fallbacks. -/
def GreedyManhattanAgent.decideRest (a : GreedyManhattanAgent) (obs : Obs)
    (k : Nat) : Action :=
  if obs.pickup_pos = some obs.robot_pos ∧ obs.has_item = false then .PICK
  else if obs.dropoff_pos = some obs.robot_pos ∧ obs.has_item = true then .DROP
  else
    match (if obs.has_item then obs.dropoff_pos else obs.pickup_pos) with
    | none =>
      (a.randomValidMove obs.local_grid k).getD ((randChoice k ACTIONS).getD .WAIT)
    | some goal =>
      let best := bestMoves a.env obs.robot_pos goal
      if best ≠ [] then (randChoice k best).getD .WAIT
      else (a.randomValidMove obs.local_grid k).getD .WAIT

/-- `GreedyManhattanAgent.decide` (`warehouse_agent_greedy.py`, lines 32-100):
loop detection against the history before the append, the bounded append, the
escape branch, then the goal-seeking tail.  Returns the action together with
the updated agent state. -/
def GreedyManhattanAgent.decide (a : GreedyManhattanAgent) (obs : Obs)
    (k : Nat) : Action × GreedyManhattanAgent :=
  let esc :=
    if obs.robot_pos ∈ a.history then a.escape_duration
    else a.escape_steps_remaining
  let a1 : GreedyManhattanAgent :=
    { a with history := dequeAppend a.history_len a.history obs.robot_pos,
             escape_steps_remaining := esc }
  if 0 < a1.escape_steps_remaining then
    let a2 : GreedyManhattanAgent :=
      { a1 with escape_steps_remaining := a1.escape_steps_remaining - 1 }
    ((a2.randomValidMove obs.local_grid k).getD (a2.decideRest obs k), a2)
  else (a1.decideRest obs k, a1)

/-- A fully open 3x3 local window. -/
def g3open : Grid := [['.', '.', '.'], ['.', '.', '.'], ['.', '.', '.']]

/-- A 3x3 local window whose every neighbour of the centre is a wall. -/
def g3blocked : Grid := [['#', '#', '#'], ['#', '.', '#'], ['#', '#', '#']]

/-- A 3x3 local window with the north neighbour walled and the rest open. -/
def gNorthWall : Grid := [['#', '#', '#'], ['.', '.', '.'], ['.', '.', '.']]

/-- A 2x2 all-floor environment. -/
def demoEnv : Env := ⟨[[false, false], [false, false]], (0, 0)⟩

/-- A 1x1 environment: every move from (0,0) leaves the grid, so all four
directions are walls by the boundary-safe predicate. -/
def wallEnv : Env := ⟨[[false]], (0, 0)⟩

/-- A freshly initialised greedy agent on `demoEnv`. -/
def demoAgent : GreedyManhattanAgent := ⟨demoEnv, 10, 3, [], 0⟩

/-- A greedy agent on `wallEnv` whose history already holds (0,0). -/
def wallAgent : GreedyManhattanAgent := ⟨wallEnv, 10, 3, [(0, 0)], 0⟩

/-- Observation at (0,0) with the pickup east at (0,1) and an open window. -/
def demoObs : Obs := ⟨(0, 0), false, some (0, 1), none, some g3open, none⟩

/-- Observation with both targets unknown and an open window. -/
def lostObs : Obs := ⟨(0, 0), false, none, none, some g3open, none⟩

/-- Observation with both targets unknown and every direction walled in the
window. -/
def blockedObs : Obs := ⟨(1, 1), false, none, none, some g3blocked, none⟩

/-- Observation with a known pickup target on a different cell but every
direction walled in the window, so the direction search finds nothing and the
rule-5 fallback fires. -/
def blockedTargetObs : Obs :=
  ⟨(1, 1), false, some (0, 1), none, some g3blocked, none⟩

/-- Observation whose pickup target lies to the north-east, with an open
window, so both N and E are unblocked primary directions. -/
def neObs : Obs := ⟨(1, 1), false, some (0, 2), none, some g3open, none⟩

/-- Observation standing on the pickup cell without the item. -/
def pickObs : Obs := ⟨(1, 1), false, some (1, 1), some (2, 2), some g3open, none⟩

/-- Observation standing on the pickup cell without the item, with every
direction walled both in the window and in `wallEnv`. -/
def atWallPickObs : Obs :=
  ⟨(0, 0), false, some (0, 0), some (1, 1), some g3blocked, none⟩

/-- Observation while carrying, dropoff due north, window showing the north
cell as a wall. -/
def carryNorthObs : Obs :=
  ⟨(1, 1), true, some (2, 2), some (0, 1), some gNorthWall, none⟩

/-- A greedy agent on `demoEnv` whose history already holds (0,0), so a call at
(0,0) detects a revisit. -/
def escAgent : GreedyManhattanAgent := ⟨demoEnv, 10, 3, [(0, 0)], 0⟩

/-- The primary (weight-2) candidate directions of
`ReflexAgent._get_direction_to_target` as a plain direction list, in the
source's insertion order N, S, W, E: axis-aligned directions that reduce the
row or column delta to the target and are not blocked per the window. -/
def primaryCandidates (current target : Int × Int) (g : Grid) : List Action :=
  let dr := target.1 - current.1
  let dc := target.2 - current.2
  (if dr < 0 ∧ ReflexAgent.is_blocked g .N = false then [Action.N] else []) ++
  (if dr > 0 ∧ ReflexAgent.is_blocked g .S = false then [Action.S] else []) ++
  (if dc < 0 ∧ ReflexAgent.is_blocked g .W = false then [Action.W] else []) ++
  (if dc > 0 ∧ ReflexAgent.is_blocked g .E = false then [Action.E] else [])

/-- The secondary (weight-1) candidate directions of
`ReflexAgent._get_direction_to_target` as a plain direction list, in the
source's insertion order W, E, N, S.  The tests are the same four conjunctions
as the primary stage, only reordered. -/
def secondaryCandidates (current target : Int × Int) (g : Grid) : List Action :=
  let dr := target.1 - current.1
  let dc := target.2 - current.2
  (if dc < 0 ∧ ReflexAgent.is_blocked g .W = false then [Action.W] else []) ++
  (if dc > 0 ∧ ReflexAgent.is_blocked g .E = false then [Action.E] else []) ++
  (if dr < 0 ∧ ReflexAgent.is_blocked g .N = false then [Action.N] else []) ++
  (if dr > 0 ∧ ReflexAgent.is_blocked g .S = false then [Action.S] else [])

/-- The movement prefix of `ReflexAgent._get_valid_moves`: the window-unblocked
movement directions in order N, S, W, E, without the appended non-movement
actions. -/
def windowOpenMoves (g : Grid) : List Action :=
  let center := g.length / 2
  (if cellAt g (center - 1) center ≠ '#' then [Action.N] else []) ++
  (if cellAt g (center + 1) center ≠ '#' then [Action.S] else []) ++
  (if cellAt g center (center - 1) ≠ '#' then [Action.W] else []) ++
  (if cellAt g center (center + 1) ≠ '#' then [Action.E] else [])

/-- The spec's description of the greedy candidate set: the movement
directions, in loop order N, E, S, W, whose destination is not a wall per
`env._is_wall` and strictly reduces the Manhattan distance to the goal. -/
def improvingMoves (e : Env) (robot goal : Int × Int) : List Action :=
  [Action.N, .E, .S, .W].filter fun m =>
    (!(e.is_wall (robot.1 + (MOVE_DELTAS m).1) (robot.2 + (MOVE_DELTAS m).2)))
    && decide (manhattan (robot.1 + (MOVE_DELTAS m).1,
        robot.2 + (MOVE_DELTAS m).2) goal < manhattan robot goal)

/-- The spec's description of rules 3 and 4 of `WarehouseAgentReflex.act`: the
first axis-aligned direction, checked in order N, S, W, E, that reduces the
delta to the target, with no wall consultation. -/
def firstTowardDir (pos target : Int × Int) : Option Action :=
  if target.1 < pos.1 then some .N
  else if target.1 > pos.1 then some .S
  else if target.2 < pos.2 then some .W
  else if target.2 > pos.2 then some .E
  else none

/-- A chosen element always comes from the list. -/
theorem randChoice_mem {α : Type} {k : Nat} {l : List α} {x : α}
    (h : randChoice k l = some x) : x ∈ l :=
  List.getElem?_mem h

/-- Every element of the list is chosen for some state of the random source:
this is the formal content of "uniformly at random among". -/
theorem randChoice_attain {α : Type} {l : List α} {x : α} (h : x ∈ l) :
    ∃ k, randChoice k l = some x := by
  obtain ⟨i, hi, rfl⟩ := List.mem_iff_getElem.1 h
  exact ⟨i, by simp [randChoice, Nat.mod_eq_of_lt hi,
    List.getElem?_eq_getElem hi]⟩

/-- On a non-empty list the choice always produces an element. -/
theorem randChoice_isSome {α : Type} (k : Nat) {l : List α} (h : l ≠ []) :
    ∃ x, randChoice k l = some x := by
  have hlen : 0 < l.length := List.length_pos.2 h
  have hm : k % l.length < l.length := Nat.mod_lt _ hlen
  exact ⟨l[k % l.length], List.getElem?_eq_getElem hm⟩

/-- Both branches of `decide` carry the same once-updated history and leave the
other bookkeeping fields of the agent alone. -/
theorem greedy_decide_state (a : GreedyManhattanAgent) (obs : Obs) (k : Nat) :
    (GreedyManhattanAgent.decide a obs k).2.history
        = dequeAppend a.history_len a.history obs.robot_pos ∧
    (GreedyManhattanAgent.decide a obs k).2.history_len = a.history_len ∧
    (GreedyManhattanAgent.decide a obs k).2.env = a.env ∧
    (GreedyManhattanAgent.decide a obs k).2.escape_duration
        = a.escape_duration := by
  refine ⟨?_, ?_, ?_, ?_⟩
  all_goals unfold GreedyManhattanAgent.decide
  all_goals dsimp only
  all_goals split
  all_goals try split
  all_goals rfl

/-- Closed form of the bounded append: exactly one element goes to the back and
the overflow is dropped from the front. -/
theorem dequeAppend_eq (maxlen : Nat) (l : List α) (x : α) :
    dequeAppend maxlen l x = (l ++ [x]).drop (l.length + 1 - maxlen) := by
  simp only [dequeAppend]
  by_cases h : maxlen < (l ++ [x]).length
  · rw [if_pos h]
    simp
  · rw [if_neg h]
    simp only [List.length_append, List.length_cons, List.length_nil] at h
    have h0 : l.length + 1 - maxlen = 0 := by omega
    rw [h0, List.drop_zero]

/-- C7: the greedy agent's visit history is a bounded FIFO owned by the policy
instance: every `decide` call appends exactly one position (the observation's
`robot_pos`) to the back, evicting oldest entries from the front, the history
never exceeds `history_len` entries, no `decide` call clears a non-trivially
bounded history, and only constructing a new instance yields an empty one. -/
theorem C7_greedy_history_bounded_fifo :
    (∀ (a : GreedyManhattanAgent) (obs : Obs) (k : Nat),
      (GreedyManhattanAgent.decide a obs k).2.history
          = (a.history ++ [obs.robot_pos]).drop
              (a.history.length + 1 - a.history_len) ∧
      (GreedyManhattanAgent.decide a obs k).2.history.length ≤ a.history_len ∧
      (0 < a.history_len →
        (GreedyManhattanAgent.decide a obs k).2.history ≠ [])) ∧
    (∀ (env : Env) (hl es : Nat),
      (GreedyManhattanAgent.init env hl es).history = []) := by
  constructor
  · intro a obs k
    have hh := (greedy_decide_state a obs k).1
    rw [hh, dequeAppend_eq]
    refine ⟨rfl, ?_, ?_⟩
    · simp
      omega
    · intro hpos hnil
      have := congrArg List.length hnil
      simp at this
      omega
  · intro env hl es
    rfl

/-- Witness for C7 at a concrete agent and observation. -/
theorem C7_greedy_history_bounded_fifo_witness :
    (GreedyManhattanAgent.decide demoAgent demoObs 0).2.history ≠ [] :=
  ((C7_greedy_history_bounded_fifo.1 demoAgent demoObs 0).2.2) (by decide)

/-- C4: for every observation, standing at a known pickup without the item
yields PICK and standing at a known dropoff while carrying yields DROP,
whatever the rest of the observation and the random source, because these two
rules are tested first. -/
theorem C4_reflex_pick_drop_first (obs : Obs) (k : Nat) :
    (obs.pickup_pos = some obs.robot_pos → obs.has_item = false →
      ReflexAgent.decide obs k = .PICK) ∧
    (obs.dropoff_pos = some obs.robot_pos → obs.has_item = true →
      ReflexAgent.decide obs k = .DROP) := by
  constructor
  · intro h1 h2
    simp [ReflexAgent.decide, h1, h2]
  · intro h1 h2
    simp [ReflexAgent.decide, h1, h2]

/-- Witness for C4 at a concrete observation standing on the pickup. -/
theorem C4_reflex_pick_drop_first_witness :
    ReflexAgent.decide pickObs 0 = .PICK :=
  (C4_reflex_pick_drop_first pickObs 0).1 rfl rfl

/-- C9: `ReflexAgent.decide` is a pure function of the observation and the
random source: it owns no state (its Lean embedding takes none and returns
only the action), and two calls on equal observations with identical
random-source states return the same action. -/
theorem C9_reflex_decide_deterministic (o1 o2 : Obs) (k1 k2 : Nat)
    (ho : o1 = o2) (hk : k1 = k2) :
    ReflexAgent.decide o1 k1 = ReflexAgent.decide o2 k2 := by
  subst ho
  subst hk
  rfl

/-- Witness for C9 at a concrete observation. -/
theorem C9_reflex_decide_deterministic_witness :
    ReflexAgent.decide pickObs 0 = ReflexAgent.decide pickObs 0 :=
  C9_reflex_decide_deterministic pickObs pickObs 0 0 rfl rfl

/-- Folding Python's keyed max over a constant-key tail keeps the seed. -/
theorem pyMax_fold_const (xs : List Action) (b : Action × Nat) (hb : b.2 = 2) :
    (xs.map (fun a => (a, 2))).foldl (fun b y => if y.2 > b.2 then y else b) b
      = b := by
  induction xs generalizing b with
  | nil => rfl
  | cons y ys ih =>
    simp only [List.map_cons, List.foldl_cons]
    rw [if_neg (by simp; omega)]
    exact ih b hb

/-- The weighted primary list built inside `_get_direction_to_target` is
`primaryCandidates` with every weight equal to 2. -/
theorem primary_pairs_eq (current target : Int × Int) (g : Grid) :
    ((if target.1 - current.1 < 0 ∧ ReflexAgent.is_blocked g .N = false then
        [(Action.N, 2)] else []) ++
     (if target.1 - current.1 > 0 ∧ ReflexAgent.is_blocked g .S = false then
        [(Action.S, 2)] else []) ++
     (if target.2 - current.2 < 0 ∧ ReflexAgent.is_blocked g .W = false then
        [(Action.W, 2)] else []) ++
     (if target.2 - current.2 > 0 ∧ ReflexAgent.is_blocked g .E = false then
        [(Action.E, 2)] else []))
    = (primaryCandidates current target g).map (fun a => (a, 2)) := by
  simp only [primaryCandidates, List.map_append,
    apply_ite (List.map (fun (a : Action) => (a, 2))), List.map_cons,
    List.map_nil]

/-- The weighted secondary list built inside `_get_direction_to_target` is
`secondaryCandidates` with every weight equal to 1. -/
theorem secondary_pairs_eq (current target : Int × Int) (g : Grid) :
    ((if target.2 - current.2 < 0 ∧ ReflexAgent.is_blocked g .W = false then
        [(Action.W, 1)] else []) ++
     (if target.2 - current.2 > 0 ∧ ReflexAgent.is_blocked g .E = false then
        [(Action.E, 1)] else []) ++
     (if target.1 - current.1 < 0 ∧ ReflexAgent.is_blocked g .N = false then
        [(Action.N, 1)] else []) ++
     (if target.1 - current.1 > 0 ∧ ReflexAgent.is_blocked g .S = false then
        [(Action.S, 1)] else []))
    = (secondaryCandidates current target g).map (fun a => (a, 1)) := by
  simp only [secondaryCandidates, List.map_append,
    apply_ite (List.map (fun (a : Action) => (a, 1))), List.map_cons,
    List.map_nil]

/-- With a non-empty primary candidate list, `_get_direction_to_target`
returns its head: Python's `max` keeps the first element among equal weights,
so the choice is deterministic and never consults the random source. -/
theorem getDirection_primary (current target : Int × Int) (g : Grid) (k : Nat)
    (h : primaryCandidates current target g ≠ []) :
    ReflexAgent.getDirectionToTarget current target g k
      = (primaryCandidates current target g).head? := by
  have hdr : ¬(target.1 - current.1 = 0 ∧ target.2 - current.2 = 0) := by
    rintro ⟨h1, h2⟩
    exact h (by simp [primaryCandidates, h1, h2])
  obtain ⟨c, cs, hcc⟩ : ∃ c cs, primaryCandidates current target g = c :: cs :=
    List.exists_cons_of_ne_nil h
  simp only [ReflexAgent.getDirectionToTarget]
  rw [if_neg hdr, primary_pairs_eq, hcc]
  simp only [List.map_cons, ne_eq, List.cons_ne_nil, not_false_iff, if_true,
    reduceIte, pyMaxBySnd]
  rw [pyMax_fold_const cs (c, 2) rfl]
  simp

/-- The primary and secondary candidate stages test the same four
conjunctions, so one list is empty exactly when the other is: the secondary
stage of `_get_direction_to_target` is unreachable. -/
theorem primary_empty_iff_secondary_empty (current target : Int × Int)
    (g : Grid) :
    primaryCandidates current target g = []
      ↔ secondaryCandidates current target g = [] := by
  have haux : ∀ (c : Prop) [Decidable c] (x : Action),
      ((if c then [x] else []) = []) ↔ ¬c := by
    intro c _ x
    by_cases hc : c <;> simp [hc]
  simp only [primaryCandidates, secondaryCandidates, List.append_eq_nil, haux]
  tauto

/-- With an empty primary stage, `_get_direction_to_target` falls through to
the last-resort stage: a uniformly random choice among all window-unblocked
directions, `none` when there are none. -/
theorem getDirection_lastResort (current target : Int × Int) (g : Grid)
    (k : Nat) (hp : primaryCandidates current target g = [])
    (hdr : ¬(target.1 - current.1 = 0 ∧ target.2 - current.2 = 0)) :
    ReflexAgent.getDirectionToTarget current target g k
      = (if ([Action.N, .S, .E, .W].filter
            (fun d => !(ReflexAgent.is_blocked g d))) ≠ [] then
          randChoice k ([Action.N, .S, .E, .W].filter
            (fun d => !(ReflexAgent.is_blocked g d)))
        else none) := by
  have hs : secondaryCandidates current target g = [] :=
    (primary_empty_iff_secondary_empty current target g).1 hp
  simp only [ReflexAgent.getDirectionToTarget]
  rw [if_neg hdr, primary_pairs_eq, secondary_pairs_eq, hp, hs]
  simp

/-- Whether `_get_direction_to_target` returns no direction does not depend on
the random source: `None` arises only from the at-target test or from all
three candidate stages being empty, and the random choice over a non-empty
list always yields an element. -/
theorem getDirection_none_indep (current target : Int × Int) (g : Grid)
    (k k2 : Nat)
    (h : ReflexAgent.getDirectionToTarget current target g k = none) :
    ReflexAgent.getDirectionToTarget current target g k2 = none := by
  by_cases h0 : target.1 - current.1 = 0 ∧ target.2 - current.2 = 0
  · simp only [ReflexAgent.getDirectionToTarget]
    rw [if_pos h0]
  · by_cases hpc : primaryCandidates current target g = []
    · rw [getDirection_lastResort current target g k hpc h0] at h
      rw [getDirection_lastResort current target g k2 hpc h0]
      by_cases hvm : ([Action.N, .S, .E, .W].filter
          (fun d => !(ReflexAgent.is_blocked g d))) ≠ []
      · rw [if_pos hvm] at h
        obtain ⟨x, hx⟩ := randChoice_isSome k hvm
        rw [hx] at h
        exact absurd h (by simp)
      · rw [if_neg hvm]
    · rw [getDirection_primary current target g k hpc] at h
      obtain ⟨c, cs, hcc⟩ := List.exists_cons_of_ne_nil hpc
      rw [hcc] at h
      simp at h

/-- Every primary candidate is window-unblocked and strictly reduces the
Manhattan distance to the target. -/
theorem primaryCandidates_sound (current target : Int × Int) (g : Grid) :
    ∀ d ∈ primaryCandidates current target g,
      ReflexAgent.is_blocked g d = false ∧
      manhattan (current.1 + (MOVE_DELTAS d).1, current.2 + (MOVE_DELTAS d).2)
          target < manhattan current target := by
  intro d hd
  simp only [primaryCandidates, List.mem_append, List.mem_ite_nil_right,
    List.mem_singleton] at hd
  rcases hd with ((⟨⟨h1, h2⟩, rfl⟩ | ⟨⟨h1, h2⟩, rfl⟩) | ⟨⟨h1, h2⟩, rfl⟩) |
    ⟨⟨h1, h2⟩, rfl⟩ <;>
    refine ⟨h2, ?_⟩ <;>
    simp only [manhattan, MOVE_DELTAS] <;>
    omega

/-- Rules 1 and 2 of `ReflexAgent.decide` cannot fire when the active target
is known and lies on a different cell than the robot. -/
theorem reflex_rules12_skip (obs : Obs) (t : Int × Int)
    (ht : (if obs.has_item then obs.dropoff_pos else obs.pickup_pos) = some t)
    (hne : t ≠ obs.robot_pos) :
    ¬(obs.pickup_pos = some obs.robot_pos ∧ obs.has_item = false) ∧
    ¬(obs.dropoff_pos = some obs.robot_pos ∧ obs.has_item = true) := by
  constructor
  · rintro ⟨hp2, hi⟩
    rw [hi] at ht
    simp only [Bool.false_eq_true, if_false] at ht
    exact hne (Option.some_inj.1 (ht.symm.trans hp2))
  · rintro ⟨hp2, hi⟩
    rw [hi] at ht
    simp only [if_true] at ht
    exact hne (Option.some_inj.1 (ht.symm.trans hp2))

/-- C6: whenever the reflex agent has a known target on a different cell and
at least one axis-aligned delta-reducing direction is unblocked per the local
window, `decide` returns one of those primary candidates — a direction that is
window-unblocked and strictly reduces the Manhattan distance — never a blocked
one. -/
theorem C6_reflex_primary_direction (obs : Obs) (k : Nat) (t : Int × Int)
    (ht : (if obs.has_item then obs.dropoff_pos else obs.pickup_pos) = some t)
    (hne : t ≠ obs.robot_pos)
    (hp : primaryCandidates obs.robot_pos t (obs.local_grid.getD []) ≠ []) :
    ReflexAgent.decide obs k
        ∈ primaryCandidates obs.robot_pos t (obs.local_grid.getD []) ∧
    ∀ d ∈ primaryCandidates obs.robot_pos t (obs.local_grid.getD []),
      ReflexAgent.is_blocked (obs.local_grid.getD []) d = false ∧
      manhattan (obs.robot_pos.1 + (MOVE_DELTAS d).1,
          obs.robot_pos.2 + (MOVE_DELTAS d).2) t < manhattan obs.robot_pos t := by
  obtain ⟨hr1, hr2⟩ := reflex_rules12_skip obs t ht hne
  obtain ⟨c, cs, hcc⟩ := List.exists_cons_of_ne_nil hp
  have hdir := getDirection_primary obs.robot_pos t (obs.local_grid.getD []) k hp
  refine ⟨?_, primaryCandidates_sound obs.robot_pos t (obs.local_grid.getD [])⟩
  unfold ReflexAgent.decide
  rw [if_neg hr1, if_neg hr2]
  dsimp only
  rw [ht]
  dsimp only
  rw [hdir, hcc]
  simp

/-- Witness for C6 at a concrete observation whose pickup target lies to the
north-east behind an open window. -/
theorem C6_reflex_primary_direction_witness :
    ReflexAgent.decide neObs 0
      ∈ primaryCandidates neObs.robot_pos (0, 2) (neObs.local_grid.getD []) :=
  (C6_reflex_primary_direction neObs 0 (0, 2) rfl (by decide) (by decide)).1

/-- Counterexample to C5: with the target to the north-east and both N and E
window-unblocked primary candidates, `decide` returns N for every state of the
random source; E is never a possible return value, so primary ties are not
broken uniformly at random. -/
theorem C5_counterexample :
    ReflexAgent.is_blocked g3open .N = false ∧
    ReflexAgent.is_blocked g3open .E = false ∧
    primaryCandidates (1, 1) (0, 2) g3open = [Action.N, Action.E] ∧
    ¬(∃ k, ReflexAgent.decide neObs k = Action.E) := by
  refine ⟨by decide, by decide, by decide, ?_⟩
  rintro ⟨k, hk⟩
  rw [show ReflexAgent.decide neObs k = Action.N from rfl] at hk
  exact Action.noConfusion hk

/-- C5 as amended: ties among equally weighted candidates are broken
deterministically at the primary stage (Python's `max` returns the first
primary candidate in insertion order N, S, W, E); the secondary stage is
unreachable because its candidate list is empty exactly when the primary one
is; uniform random choice happens only at the last-resort stage over all
window-unblocked directions, where every unblocked direction is attainable. -/
theorem C5_tie_break_deterministic (current target : Int × Int) (g : Grid)
    (k : Nat) :
    (primaryCandidates current target g ≠ [] →
      ReflexAgent.getDirectionToTarget current target g k
        = (primaryCandidates current target g).head?) ∧
    (primaryCandidates current target g = []
      ↔ secondaryCandidates current target g = []) ∧
    (primaryCandidates current target g = [] →
      ¬(target.1 - current.1 = 0 ∧ target.2 - current.2 = 0) →
      ReflexAgent.getDirectionToTarget current target g k
        = (if ([Action.N, .S, .E, .W].filter
              (fun d => !(ReflexAgent.is_blocked g d))) ≠ [] then
            randChoice k ([Action.N, .S, .E, .W].filter
              (fun d => !(ReflexAgent.is_blocked g d)))
          else none) ∧
      ∀ d ∈ [Action.N, .S, .E, .W].filter
          (fun d => !(ReflexAgent.is_blocked g d)),
        ∃ k2, ReflexAgent.getDirectionToTarget current target g k2 = some d) := by
  refine ⟨getDirection_primary current target g k,
    primary_empty_iff_secondary_empty current target g, ?_⟩
  intro hp hdr
  refine ⟨getDirection_lastResort current target g k hp hdr, ?_⟩
  intro d hd
  obtain ⟨k2, hk2⟩ := randChoice_attain hd
  refine ⟨k2, ?_⟩
  rw [getDirection_lastResort current target g k2 hp hdr,
    if_pos (List.ne_nil_of_mem hd), hk2]

/-- Witness for C5's amended statement at a concrete window and target. -/
theorem C5_tie_break_deterministic_witness :
    ReflexAgent.getDirectionToTarget (1, 1) (0, 2) g3open 0
      = (primaryCandidates (1, 1) (0, 2) g3open).head? :=
  (C5_tie_break_deterministic (1, 1) (0, 2) g3open 0).1 (by decide)

/-- Counterexample to C2: with no target known and every movement direction
blocked in the window, the rule-5 fallback returns PICK (for random state 1)
rather than WAIT, because `_get_valid_moves` appends WAIT, PICK and DROP to
the candidate list; the claimed "movement directions only, WAIT when all
blocked" behaviour does not hold. -/
theorem C2_counterexample :
    windowOpenMoves g3blocked = [] ∧
    ReflexAgent.decide blockedObs 1 = Action.PICK := by
  exact ⟨rfl, rfl⟩

/-- C2 as amended: whenever no goal-directed rule applies — rules 1 and 2 do
not fire, and either no target is known or the direction search selects no
direction toward it — the rule-5 fallback selects uniformly at random from the
window-unblocked movement directions followed by WAIT, PICK and DROP; this
list is never empty, so the terminal WAIT branch is unreachable, every listed
action (including PICK and DROP) is attainable, and WAIT is not returned
exactly-when all directions are blocked. -/
theorem C2_fallback_uniform (obs : Obs) (k : Nat)
    (h1 : ¬(obs.pickup_pos = some obs.robot_pos ∧ obs.has_item = false))
    (h2 : ¬(obs.dropoff_pos = some obs.robot_pos ∧ obs.has_item = true))
    (h3 : ∀ t, (if obs.has_item then obs.dropoff_pos else obs.pickup_pos)
        = some t →
      ReflexAgent.getDirectionToTarget obs.robot_pos t
        (obs.local_grid.getD []) k = none) :
    ReflexAgent.decide obs k
        = (randChoice k
            (ReflexAgent.getValidMoves (obs.local_grid.getD []))).getD .WAIT ∧
    ReflexAgent.getValidMoves (obs.local_grid.getD [])
        = windowOpenMoves (obs.local_grid.getD [])
            ++ [Action.WAIT, .PICK, .DROP] ∧
    ReflexAgent.getValidMoves (obs.local_grid.getD []) ≠ [] ∧
    ReflexAgent.decide obs k
        ∈ ReflexAgent.getValidMoves (obs.local_grid.getD []) ∧
    (∀ x ∈ ReflexAgent.getValidMoves (obs.local_grid.getD []),
      ∃ k2, ReflexAgent.decide obs k2 = x) := by
  have hsplit : ReflexAgent.getValidMoves (obs.local_grid.getD [])
      = windowOpenMoves (obs.local_grid.getD [])
          ++ [Action.WAIT, .PICK, .DROP] := rfl
  have hnil : ReflexAgent.getValidMoves (obs.local_grid.getD []) ≠ [] := by
    rw [hsplit]
    simp
  have hdec : ∀ k2, ReflexAgent.decide obs k2
      = (randChoice k2
          (ReflexAgent.getValidMoves (obs.local_grid.getD []))).getD .WAIT := by
    intro k2
    unfold ReflexAgent.decide
    rw [if_neg h1, if_neg h2]
    dsimp only
    cases htgt : (if obs.has_item then obs.dropoff_pos else obs.pickup_pos) with
    | none =>
      simp only [Option.getD_none]
      rw [if_pos hnil]
    | some t =>
      dsimp only
      rw [getDirection_none_indep obs.robot_pos t (obs.local_grid.getD [])
        k k2 (h3 t htgt)]
      simp only [Option.getD_none]
      rw [if_pos hnil]
  refine ⟨hdec k, hsplit, hnil, ?_, ?_⟩
  · obtain ⟨x, hx⟩ := randChoice_isSome k hnil
    rw [hdec k, hx]
    exact randChoice_mem hx
  · intro x hx
    obtain ⟨k2, hk2⟩ := randChoice_attain hx
    exact ⟨k2, by rw [hdec k2, hk2]; rfl⟩

/-- Witness for C2's amended statement at a concrete observation with a known
pickup target but every direction window-blocked, so rule 5 fires through the
no-direction route. -/
theorem C2_fallback_uniform_witness :
    ReflexAgent.decide blockedTargetObs 0
      = (randChoice 0
          (ReflexAgent.getValidMoves
            (blockedTargetObs.local_grid.getD []))).getD .WAIT :=
  (C2_fallback_uniform blockedTargetObs 0 (by decide) (by decide)
    (fun t ht => by
      obtain rfl : t = ((0 : Int), (1 : Int)) :=
        (Option.some_inj.1 (show some ((0 : Int), (1 : Int)) = some t from
          ht)).symm
      rfl)).1

/-- C10: the alternative reflex implementation `WarehouseAgentReflex.act`
never consults `local_grid` (changing the window never changes the action);
away from its current target, with the default action set, it returns the
first axis-aligned delta-reducing direction in check order N, S, W, E; and on
a concrete input it returns a movement direction whose destination the window
marks as a wall. -/
theorem C10_act_ignores_walls :
    (∀ (s : Obs) (k : Nat) (g2 : Option Grid),
      WarehouseAgentReflex.act { s with local_grid := g2 } k
        = WarehouseAgentReflex.act s k) ∧
    (∀ (s : Obs) (k : Nat) (t : Int × Int),
      s.valid_actions = none → s.has_item = true → s.dropoff_pos = some t →
      t ≠ s.robot_pos →
      WarehouseAgentReflex.act s k
          = (firstTowardDir s.robot_pos t).getD .WAIT ∧
      firstTowardDir s.robot_pos t ≠ none) ∧
    (∀ (s : Obs) (k : Nat) (t : Int × Int),
      s.valid_actions = none → s.has_item = false → s.pickup_pos = some t →
      t ≠ s.robot_pos →
      WarehouseAgentReflex.act s k
          = (firstTowardDir s.robot_pos t).getD .WAIT ∧
      firstTowardDir s.robot_pos t ≠ none) ∧
    (WarehouseAgentReflex.act carryNorthObs 0 = Action.N ∧
      ReflexAgent.is_blocked (carryNorthObs.local_grid.getD []) Action.N
        = true) := by
  have hft : ∀ (p t : Int × Int), t ≠ p → firstTowardDir p t ≠ none := by
    intro p t hne
    unfold firstTowardDir
    split_ifs with h1 h2 h3 h4
    · simp
    · simp
    · simp
    · simp
    · exact absurd (Prod.ext_iff.2 ⟨by omega, by omega⟩) hne
  refine ⟨?_, ?_, ?_, ⟨rfl, rfl⟩⟩
  · intro s k g2
    rfl
  · intro s k t hva hcar hdrop hne
    refine ⟨?_, hft s.robot_pos t hne⟩
    rcases lt_trichotomy t.1 s.robot_pos.1 with h1 | h1 | h1
    · simp [WarehouseAgentReflex.act, firstTowardDir, hva, hcar, hdrop, h1,
        asymm h1, hne]
    · rcases lt_trichotomy t.2 s.robot_pos.2 with h2 | h2 | h2
      · simp [WarehouseAgentReflex.act, firstTowardDir, hva, hcar, hdrop, h1,
          h2, asymm h2, hne]
      · exact absurd (Prod.ext_iff.2 ⟨h1, h2⟩) hne
      · simp [WarehouseAgentReflex.act, firstTowardDir, hva, hcar, hdrop, h1,
          h2, asymm h2, hne]
    · simp [WarehouseAgentReflex.act, firstTowardDir, hva, hcar, hdrop, h1,
        asymm h1, hne]
  · intro s k t hva hcar hpick hne
    refine ⟨?_, hft s.robot_pos t hne⟩
    rcases lt_trichotomy t.1 s.robot_pos.1 with h1 | h1 | h1
    · cases hdo : s.dropoff_pos <;>
        simp [WarehouseAgentReflex.act, firstTowardDir, hva, hcar, hpick, h1,
          asymm h1, hne, hdo]
    · rcases lt_trichotomy t.2 s.robot_pos.2 with h2 | h2 | h2
      · cases hdo : s.dropoff_pos <;>
          simp [WarehouseAgentReflex.act, firstTowardDir, hva, hcar, hpick, h1,
            h2, asymm h2, hne, hdo]
      · exact absurd (Prod.ext_iff.2 ⟨h1, h2⟩) hne
      · cases hdo : s.dropoff_pos <;>
          simp [WarehouseAgentReflex.act, firstTowardDir, hva, hcar, hpick, h1,
            h2, asymm h2, hne, hdo]
    · cases hdo : s.dropoff_pos <;>
        simp [WarehouseAgentReflex.act, firstTowardDir, hva, hcar, hpick, h1,
          asymm h1, hne, hdo]

/-- Witness for C10 at a concrete carrying observation with the dropoff due
north. -/
theorem C10_act_ignores_walls_witness :
    WarehouseAgentReflex.act carryNorthObs 0
      = (firstTowardDir carryNorthObs.robot_pos (0, 1)).getD .WAIT :=
  (C10_act_ignores_walls.2.1 carryNorthObs 0 (0, 1) rfl rfl rfl (by decide)).1

/-- With a positive escape counter after the loop check, `decide` takes the
escape branch: it decrements the counter, appends the position, and returns
the random valid move when one exists, otherwise the goal-seeking tail. -/
theorem greedy_decide_escape_shape (a : GreedyManhattanAgent) (obs : Obs)
    (k : Nat) (esc : Nat)
    (hesc : (if obs.robot_pos ∈ a.history then a.escape_duration
        else a.escape_steps_remaining) = esc) (hpos : 0 < esc) :
    GreedyManhattanAgent.decide a obs k
      = ((({ a with
              history := dequeAppend a.history_len a.history obs.robot_pos,
              escape_steps_remaining := esc - 1 } :
            GreedyManhattanAgent).randomValidMove obs.local_grid k).getD
          (({ a with
              history := dequeAppend a.history_len a.history obs.robot_pos,
              escape_steps_remaining := esc - 1 } :
            GreedyManhattanAgent).decideRest obs k),
        { a with
          history := dequeAppend a.history_len a.history obs.robot_pos,
          escape_steps_remaining := esc - 1 }) := by
  unfold GreedyManhattanAgent.decide
  dsimp only
  rw [hesc, if_pos hpos]

/-- Appending an element to a deque with positive capacity keeps it present. -/
theorem mem_dequeAppend_self {α : Type} (maxlen : Nat) (h : 0 < maxlen)
    (l : List α) (x : α) : x ∈ dequeAppend maxlen l x := by
  rw [dequeAppend_eq]
  have hle : l.length + 1 - maxlen ≤ l.length := by omega
  rw [List.drop_append_of_le_length hle]
  simp

/-- Counterexample to C3: a revisit is detected and the escape counter armed
(dropping from 3 to 2 on this call), yet because every direction is walled
both in the window and in the environment, the call falls through to the goal
rules and returns PICK — not a random unblocked movement action. -/
theorem C3_counterexample :
    (0, 0) ∈ wallAgent.history ∧
    (GreedyManhattanAgent.decide wallAgent atWallPickObs 0).2.escape_steps_remaining = 2 ∧
    (GreedyManhattanAgent.decide wallAgent atWallPickObs 0).1 = Action.PICK := by
  exact ⟨by decide, rfl, rfl⟩

/-- C3 as amended: the history is consulted before the append, so a revisit
(including an immediate one, since the position is in the history right after
any call with positive capacity) arms the escape counter at `escape_steps`;
while the counter is positive each call decrements it and returns a uniformly
random unblocked movement action whenever one exists, ignoring the goal rules;
when no unblocked move exists the call falls through to the goal-seeking tail
(the counter still decremented). -/
theorem C3_escape_counter (a : GreedyManhattanAgent) (obs : Obs) (k : Nat) :
    (obs.robot_pos ∈ a.history → 0 < a.escape_duration →
      (GreedyManhattanAgent.decide a obs k).2.escape_steps_remaining
          = a.escape_duration - 1 ∧
      (∀ m, ({ a with
            history := dequeAppend a.history_len a.history obs.robot_pos,
            escape_steps_remaining := a.escape_duration - 1 } :
          GreedyManhattanAgent).randomValidMove obs.local_grid k = some m →
        (GreedyManhattanAgent.decide a obs k).1 = m) ∧
      (∀ m ∈ ({ a with
            history := dequeAppend a.history_len a.history obs.robot_pos,
            escape_steps_remaining := a.escape_duration - 1 } :
          GreedyManhattanAgent).validList obs.local_grid,
        ∃ k2, (GreedyManhattanAgent.decide a obs k2).1 = m) ∧
      (({ a with
            history := dequeAppend a.history_len a.history obs.robot_pos,
            escape_steps_remaining := a.escape_duration - 1 } :
          GreedyManhattanAgent).validList obs.local_grid = [] →
        (GreedyManhattanAgent.decide a obs k).1
          = ({ a with
                history := dequeAppend a.history_len a.history obs.robot_pos,
                escape_steps_remaining := a.escape_duration - 1 } :
              GreedyManhattanAgent).decideRest obs k)) ∧
    (obs.robot_pos ∉ a.history → 0 < a.escape_steps_remaining →
      (GreedyManhattanAgent.decide a obs k).2.escape_steps_remaining
          = a.escape_steps_remaining - 1 ∧
      ∀ m, ({ a with
            history := dequeAppend a.history_len a.history obs.robot_pos,
            escape_steps_remaining := a.escape_steps_remaining - 1 } :
          GreedyManhattanAgent).randomValidMove obs.local_grid k = some m →
        (GreedyManhattanAgent.decide a obs k).1 = m) ∧
    (0 < a.history_len →
      obs.robot_pos ∈ (GreedyManhattanAgent.decide a obs k).2.history) := by
  refine ⟨?_, ?_, ?_⟩
  · intro hmem hdur
    have hshape := fun k2 => greedy_decide_escape_shape a obs k2
      a.escape_duration (if_pos hmem) hdur
    refine ⟨by rw [hshape k], ?_, ?_, ?_⟩
    · intro m hm
      rw [hshape k, hm]
      rfl
    · intro m hm
      obtain ⟨k2, hk2⟩ := randChoice_attain hm
      refine ⟨k2, ?_⟩
      rw [hshape k2]
      rw [show ({ a with
            history := dequeAppend a.history_len a.history obs.robot_pos,
            escape_steps_remaining := a.escape_duration - 1 } :
          GreedyManhattanAgent).randomValidMove obs.local_grid k2
          = some m from hk2]
      rfl
    · intro hnil
      rw [hshape k]
      rw [show ({ a with
            history := dequeAppend a.history_len a.history obs.robot_pos,
            escape_steps_remaining := a.escape_duration - 1 } :
          GreedyManhattanAgent).randomValidMove obs.local_grid k
          = none by
        unfold GreedyManhattanAgent.randomValidMove
        rw [hnil]
        rfl]
      rfl
  · intro hmem hpos
    have hshape := fun k2 => greedy_decide_escape_shape a obs k2
      a.escape_steps_remaining (if_neg hmem) hpos
    refine ⟨by rw [hshape k], ?_⟩
    intro m hm
    rw [hshape k, hm]
    rfl
  · intro hlen
    rw [(greedy_decide_state a obs k).1]
    exact mem_dequeAppend_self a.history_len hlen a.history obs.robot_pos

/-- Witness for C3's amended statement: a revisit at (0,0) on an open window
arms the counter (3 drops to 2) and the call returns the first window-open
direction selected by the random source. -/
theorem C3_escape_counter_witness :
    (GreedyManhattanAgent.decide escAgent demoObs 0).2.escape_steps_remaining = 2 ∧
    (GreedyManhattanAgent.decide escAgent demoObs 0).1 = Action.N := by
  have h := (C3_escape_counter escAgent demoObs 0).1 (by decide) (by decide)
  exact ⟨h.1, h.2.1 Action.N rfl⟩

/-- C8: both policies always return an action from the closed vocabulary
{N, S, E, W, WAIT, PICK, DROP}; in particular, with both targets unknown the
greedy policy recovers through the random-move fallback (random valid move,
then a random action from `ACTIONS`) rather than failing. -/
theorem C8_closed_action_vocabulary :
    (∀ (obs : Obs) (k : Nat), ReflexAgent.decide obs k ∈ ACTIONS) ∧
    (∀ (a : GreedyManhattanAgent) (obs : Obs) (k : Nat),
      (GreedyManhattanAgent.decide a obs k).1 ∈ ACTIONS) ∧
    (∀ (a : GreedyManhattanAgent) (obs : Obs) (k : Nat),
      obs.pickup_pos = none → obs.dropoff_pos = none →
      obs.robot_pos ∉ a.history → a.escape_steps_remaining = 0 →
      (GreedyManhattanAgent.decide a obs k).1
        = (({ a with
              history := dequeAppend a.history_len a.history obs.robot_pos } :
            GreedyManhattanAgent).randomValidMove obs.local_grid k).getD
            ((randChoice k ACTIONS).getD .WAIT)) := by
  have hall : ∀ x : Action, x ∈ ACTIONS := by
    intro x
    cases x <;> simp [ACTIONS]
  refine ⟨fun _ _ => hall _, fun _ _ _ => hall _, ?_⟩
  intro a obs k hp hd hnot hesc
  have hshape : GreedyManhattanAgent.decide a obs k
      = (({ a with
            history := dequeAppend a.history_len a.history obs.robot_pos } :
          GreedyManhattanAgent).decideRest obs k,
         { a with
            history := dequeAppend a.history_len a.history obs.robot_pos }) := by
    unfold GreedyManhattanAgent.decide
    dsimp only
    rw [if_neg hnot, if_neg (by simp [hesc])]
  rw [hshape]
  unfold GreedyManhattanAgent.decideRest
  rw [if_neg (by simp [hp]), if_neg (by simp [hd])]
  have htgt : (if obs.has_item then obs.dropoff_pos else obs.pickup_pos)
      = none := by
    cases obs.has_item <;> simp [hp, hd]
  rw [htgt]

/-- Witness for C8's fallback clause at a concrete agent with both targets
unknown. -/
theorem C8_closed_action_vocabulary_witness :
    (GreedyManhattanAgent.decide demoAgent lostObs 0).1
      = (({ demoAgent with
            history := dequeAppend demoAgent.history_len demoAgent.history
              lostObs.robot_pos } :
          GreedyManhattanAgent).randomValidMove lostObs.local_grid 0).getD
          ((randChoice 0 ACTIONS).getD .WAIT) :=
  C8_closed_action_vocabulary.2.2 demoAgent lostObs 0 rfl rfl (by decide) rfl

/-- One step of the greedy best-move loop preserves the loop invariant: the
accumulator is either the untouched seed (no improving survivor seen) or holds
the common improved distance together with all improving survivors so far. -/
theorem greedyStep_pres (e : Env) (robot goal : Int × Int) (m : Action)
    (hd : manhattan (robot.1 + (MOVE_DELTAS m).1, robot.2 + (MOVE_DELTAS m).2)
            goal = manhattan robot goal + 1 ∨
          manhattan (robot.1 + (MOVE_DELTAS m).1, robot.2 + (MOVE_DELTAS m).2)
            goal + 1 = manhattan robot goal)
    (acc : Nat × List Action) (L : List Action)
    (hinv : (L = [] ∧ acc = (manhattan robot goal, [])) ∨
        (L ≠ [] ∧ acc.1 + 1 = manhattan robot goal ∧ acc.2 = L))
    (L2 : List Action)
    (hL2 : L2 = L ++ (if e.is_wall (robot.1 + (MOVE_DELTAS m).1)
          (robot.2 + (MOVE_DELTAS m).2) = false ∧
        manhattan (robot.1 + (MOVE_DELTAS m).1, robot.2 + (MOVE_DELTAS m).2)
          goal < manhattan robot goal then [m] else [])) :
    (L2 = [] ∧ greedyStep e robot goal (manhattan robot goal) acc m
        = (manhattan robot goal, [])) ∨
    (L2 ≠ [] ∧
      (greedyStep e robot goal (manhattan robot goal) acc m).1 + 1
        = manhattan robot goal ∧
      (greedyStep e robot goal (manhattan robot goal) acc m).2 = L2) := by
  unfold greedyStep
  by_cases hw : e.is_wall (robot.1 + (MOVE_DELTAS m).1)
      (robot.2 + (MOVE_DELTAS m).2) = true
  · rw [if_pos hw]
    rw [show L2 = L by rw [hL2, if_neg (by simp [hw]), List.append_nil]]
    exact hinv
  · rw [if_neg hw]
    have hwf : e.is_wall (robot.1 + (MOVE_DELTAS m).1)
        (robot.2 + (MOVE_DELTAS m).2) = false := by
      revert hw
      cases e.is_wall (robot.1 + (MOVE_DELTAS m).1)
        (robot.2 + (MOVE_DELTAS m).2) <;> simp
    rcases hinv with ⟨hL, hacc⟩ | ⟨hL, h1, h2⟩
    · subst hL
      rw [hacc]
      dsimp only
      rcases hd with hdd | hdd
      · rw [if_neg (by omega), if_neg (by omega)]
        left
        rw [hL2, if_neg (by omega), List.nil_append]
        exact ⟨rfl, rfl⟩
      · rw [if_pos (by omega)]
        right
        rw [hL2, if_pos ⟨hwf, by omega⟩, List.nil_append]
        exact ⟨by simp, by omega, rfl⟩
    · rcases hd with hdd | hdd
      · rw [if_neg (by omega), if_neg (by omega)]
        right
        rw [hL2, if_neg (by omega), List.append_nil]
        exact ⟨hL, h1, h2⟩
      · rw [if_neg (by omega), if_pos ⟨by omega, by omega⟩]
        right
        rw [hL2, if_pos ⟨hwf, by omega⟩]
        refine ⟨by simp [hL], by simpa using h1, by rw [h2]⟩

/-- Each movement changes the Manhattan distance to the goal by exactly one. -/
theorem manhattan_step (robot goal : Int × Int) (m : Action)
    (hm : m ∈ [Action.N, .E, .S, .W]) :
    manhattan (robot.1 + (MOVE_DELTAS m).1, robot.2 + (MOVE_DELTAS m).2) goal
        = manhattan robot goal + 1 ∨
    manhattan (robot.1 + (MOVE_DELTAS m).1, robot.2 + (MOVE_DELTAS m).2) goal
        + 1 = manhattan robot goal := by
  fin_cases hm <;> (simp only [MOVE_DELTAS, manhattan]; omega)

/-- The greedy best-move fold maintains its invariant along any suffix of the
move list whose steps all change the distance by exactly one. -/
theorem greedyFold_pres (e : Env) (robot goal : Int × Int) (ms : List Action)
    (hd : ∀ m ∈ ms,
      manhattan (robot.1 + (MOVE_DELTAS m).1, robot.2 + (MOVE_DELTAS m).2)
          goal = manhattan robot goal + 1 ∨
      manhattan (robot.1 + (MOVE_DELTAS m).1, robot.2 + (MOVE_DELTAS m).2)
          goal + 1 = manhattan robot goal)
    (acc : Nat × List Action) (L : List Action)
    (hinv : (L = [] ∧ acc = (manhattan robot goal, [])) ∨
        (L ≠ [] ∧ acc.1 + 1 = manhattan robot goal ∧ acc.2 = L)) :
    (L ++ ms.filter (fun m =>
        (!(e.is_wall (robot.1 + (MOVE_DELTAS m).1)
            (robot.2 + (MOVE_DELTAS m).2)))
        && decide (manhattan (robot.1 + (MOVE_DELTAS m).1,
            robot.2 + (MOVE_DELTAS m).2) goal < manhattan robot goal)) = []
      ∧ ms.foldl (greedyStep e robot goal (manhattan robot goal)) acc
          = (manhattan robot goal, [])) ∨
    (L ++ ms.filter (fun m =>
        (!(e.is_wall (robot.1 + (MOVE_DELTAS m).1)
            (robot.2 + (MOVE_DELTAS m).2)))
        && decide (manhattan (robot.1 + (MOVE_DELTAS m).1,
            robot.2 + (MOVE_DELTAS m).2) goal < manhattan robot goal)) ≠ []
      ∧ (ms.foldl (greedyStep e robot goal (manhattan robot goal)) acc).1 + 1
          = manhattan robot goal
      ∧ (ms.foldl (greedyStep e robot goal (manhattan robot goal)) acc).2
          = L ++ ms.filter (fun m =>
            (!(e.is_wall (robot.1 + (MOVE_DELTAS m).1)
                (robot.2 + (MOVE_DELTAS m).2)))
            && decide (manhattan (robot.1 + (MOVE_DELTAS m).1,
                robot.2 + (MOVE_DELTAS m).2) goal < manhattan robot goal))) := by
  induction ms generalizing acc L with
  | nil => simpa using hinv
  | cons m ms ih =>
    have hstep := greedyStep_pres e robot goal m (hd m (by simp)) acc L hinv
      (L ++ (if e.is_wall (robot.1 + (MOVE_DELTAS m).1)
            (robot.2 + (MOVE_DELTAS m).2) = false ∧
          manhattan (robot.1 + (MOVE_DELTAS m).1,
            robot.2 + (MOVE_DELTAS m).2) goal < manhattan robot goal then
        [m] else [])) rfl
    have hrec := ih (fun m' hm' => hd m' (by simp [hm']))
      (greedyStep e robot goal (manhattan robot goal) acc m)
      (L ++ (if e.is_wall (robot.1 + (MOVE_DELTAS m).1)
            (robot.2 + (MOVE_DELTAS m).2) = false ∧
          manhattan (robot.1 + (MOVE_DELTAS m).1,
            robot.2 + (MOVE_DELTAS m).2) goal < manhattan robot goal then
        [m] else [])) hstep
    have hlist : (L ++ (if e.is_wall (robot.1 + (MOVE_DELTAS m).1)
            (robot.2 + (MOVE_DELTAS m).2) = false ∧
          manhattan (robot.1 + (MOVE_DELTAS m).1,
            robot.2 + (MOVE_DELTAS m).2) goal < manhattan robot goal then
        [m] else [])) ++ ms.filter (fun m =>
          (!(e.is_wall (robot.1 + (MOVE_DELTAS m).1)
              (robot.2 + (MOVE_DELTAS m).2)))
          && decide (manhattan (robot.1 + (MOVE_DELTAS m).1,
              robot.2 + (MOVE_DELTAS m).2) goal < manhattan robot goal))
        = L ++ (m :: ms).filter (fun m =>
          (!(e.is_wall (robot.1 + (MOVE_DELTAS m).1)
              (robot.2 + (MOVE_DELTAS m).2)))
          && decide (manhattan (robot.1 + (MOVE_DELTAS m).1,
              robot.2 + (MOVE_DELTAS m).2) goal < manhattan robot goal)) := by
      by_cases hc : e.is_wall (robot.1 + (MOVE_DELTAS m).1)
            (robot.2 + (MOVE_DELTAS m).2) = false ∧
          manhattan (robot.1 + (MOVE_DELTAS m).1,
            robot.2 + (MOVE_DELTAS m).2) goal < manhattan robot goal
      · rw [if_pos hc, List.filter_cons, if_pos (by simp [hc.1, hc.2])]
        simp
      · rw [if_neg hc, List.filter_cons, if_neg (by
          simp only [Bool.and_eq_true, Bool.not_eq_true', decide_eq_true_eq]
          exact hc)]
        simp
    rw [List.foldl_cons]
    rw [← hlist]
    exact hrec

/-- The greedy best-move loop computes exactly the wall-free strictly
improving directions in loop order: since every move changes the distance by
one, all improving survivors tie at the minimum and the accumulator collects
them all. -/
theorem bestMoves_eq (e : Env) (robot goal : Int × Int) :
    bestMoves e robot goal = improvingMoves e robot goal := by
  have h := greedyFold_pres e robot goal [Action.N, .E, .S, .W]
    (manhattan_step robot goal) (manhattan robot goal, []) []
    (Or.inl ⟨rfl, rfl⟩)
  unfold bestMoves improvingMoves
  rcases h with ⟨hL, hstep⟩ | ⟨hL, h1, h2⟩
  · rw [hstep]
    simp only [List.nil_append] at hL
    exact hL.symm
  · rw [h2]
    simp

/-- Outside escape mode, `decide` reduces to the goal-seeking tail on the
history-updated agent. -/
theorem greedy_decide_plain_shape (a : GreedyManhattanAgent) (obs : Obs)
    (k : Nat) (hnot : obs.robot_pos ∉ a.history)
    (hesc : a.escape_steps_remaining = 0) :
    GreedyManhattanAgent.decide a obs k
      = (({ a with
            history := dequeAppend a.history_len a.history obs.robot_pos } :
          GreedyManhattanAgent).decideRest obs k,
         { a with
            history := dequeAppend a.history_len a.history obs.robot_pos }) := by
  unfold GreedyManhattanAgent.decide
  dsimp only
  rw [if_neg hnot, if_neg (by simp [hesc])]

/-- With a known goal on a different cell, the goal-seeking tail reduces to
the distance-greedy choice with its two fallbacks. -/
theorem decideRest_goal_shape (a : GreedyManhattanAgent) (obs : Obs) (k : Nat)
    (goal : Int × Int)
    (hgoal : (if obs.has_item then obs.dropoff_pos else obs.pickup_pos)
        = some goal)
    (hne : goal ≠ obs.robot_pos) :
    GreedyManhattanAgent.decideRest a obs k
      = (if bestMoves a.env obs.robot_pos goal ≠ [] then
          (randChoice k (bestMoves a.env obs.robot_pos goal)).getD .WAIT
        else (a.randomValidMove obs.local_grid k).getD .WAIT) := by
  obtain ⟨hr1, hr2⟩ := reflex_rules12_skip obs goal hgoal hne
  unfold GreedyManhattanAgent.decideRest
  rw [if_neg hr1, if_neg hr2, hgoal]

/-- C1: outside escape mode, away from the known goal, the greedy agent drops
every direction whose destination is a wall per the environment's
boundary-safe `_is_wall` (not the local window), and picks uniformly at random
among the surviving directions that strictly improve the Manhattan distance
(they all tie at `cur - 1`, the strict minimum); when no survivor improves it
falls back to a uniformly random unblocked move via `_random_valid_move`, and
when that yields nothing it returns WAIT. -/
theorem C1_greedy_goal_seeking (a : GreedyManhattanAgent) (obs : Obs) (k : Nat)
    (goal : Int × Int)
    (hesc : a.escape_steps_remaining = 0)
    (hmem : obs.robot_pos ∉ a.history)
    (hgoal : (if obs.has_item then obs.dropoff_pos else obs.pickup_pos)
        = some goal)
    (hne : goal ≠ obs.robot_pos) :
    (improvingMoves a.env obs.robot_pos goal ≠ [] →
      (GreedyManhattanAgent.decide a obs k).1
          = (randChoice k (improvingMoves a.env obs.robot_pos goal)).getD
              .WAIT ∧
      (GreedyManhattanAgent.decide a obs k).1
          ∈ improvingMoves a.env obs.robot_pos goal ∧
      (∀ m ∈ improvingMoves a.env obs.robot_pos goal,
        ∃ k2, (GreedyManhattanAgent.decide a obs k2).1 = m)) ∧
    (improvingMoves a.env obs.robot_pos goal = [] →
      (GreedyManhattanAgent.decide a obs k).1
          = (({ a with
                history := dequeAppend a.history_len a.history obs.robot_pos } :
              GreedyManhattanAgent).randomValidMove obs.local_grid k).getD
              .WAIT ∧
      (({ a with
            history := dequeAppend a.history_len a.history obs.robot_pos } :
          GreedyManhattanAgent).validList obs.local_grid = [] →
        (GreedyManhattanAgent.decide a obs k).1 = .WAIT) ∧
      (∀ m ∈ ({ a with
            history := dequeAppend a.history_len a.history obs.robot_pos } :
          GreedyManhattanAgent).validList obs.local_grid,
        ∃ k2, (GreedyManhattanAgent.decide a obs k2).1 = m)) ∧
    (∀ m ∈ improvingMoves a.env obs.robot_pos goal,
      a.env.is_wall (obs.robot_pos.1 + (MOVE_DELTAS m).1)
          (obs.robot_pos.2 + (MOVE_DELTAS m).2) = false ∧
      manhattan (obs.robot_pos.1 + (MOVE_DELTAS m).1,
          obs.robot_pos.2 + (MOVE_DELTAS m).2) goal + 1
        = manhattan obs.robot_pos goal) := by
  have hshape : ∀ k2, (GreedyManhattanAgent.decide a obs k2).1
      = (if bestMoves a.env obs.robot_pos goal ≠ [] then
          (randChoice k2 (bestMoves a.env obs.robot_pos goal)).getD .WAIT
        else (({ a with
              history := dequeAppend a.history_len a.history obs.robot_pos } :
            GreedyManhattanAgent).randomValidMove obs.local_grid k2).getD
            .WAIT) := by
    intro k2
    rw [greedy_decide_plain_shape a obs k2 hmem hesc]
    dsimp only
    rw [decideRest_goal_shape _ obs k2 goal hgoal hne]
  refine ⟨?_, ?_, ?_⟩
  · intro hne2
    have hb : bestMoves a.env obs.robot_pos goal ≠ [] := by
      rw [bestMoves_eq]
      exact hne2
    refine ⟨by rw [hshape k, if_pos hb, bestMoves_eq], ?_, ?_⟩
    · rw [hshape k, if_pos hb]
      obtain ⟨x, hx⟩ := randChoice_isSome k hb
      rw [hx]
      rw [bestMoves_eq] at hx
      simpa using randChoice_mem hx
    · intro m hm
      have hm2 : m ∈ bestMoves a.env obs.robot_pos goal := by
        rw [bestMoves_eq]
        exact hm
      obtain ⟨k2, hk2⟩ := randChoice_attain hm2
      exact ⟨k2, by rw [hshape k2, if_pos hb, hk2]; rfl⟩
  · intro hempty
    have hb : ¬ (bestMoves a.env obs.robot_pos goal ≠ []) := by
      rw [bestMoves_eq, hempty]
      simp
    refine ⟨by rw [hshape k, if_neg hb], ?_, ?_⟩
    · intro hvl
      rw [hshape k, if_neg hb]
      unfold GreedyManhattanAgent.randomValidMove
      rw [hvl]
      rfl
    · intro m hm
      obtain ⟨k2, hk2⟩ := randChoice_attain hm
      refine ⟨k2, ?_⟩
      rw [hshape k2, if_neg hb]
      unfold GreedyManhattanAgent.randomValidMove
      rw [hk2]
      rfl
  · intro m hm
    have hm2 := hm
    simp only [improvingMoves, List.mem_filter, Bool.and_eq_true,
      Bool.not_eq_true', decide_eq_true_eq] at hm2
    obtain ⟨hmem4, hw, hlt⟩ := hm2
    have h1 := manhattan_step obs.robot_pos goal m hmem4
    exact ⟨hw, by omega⟩

/-- Witness for C1 at a concrete open environment with the pickup one cell
east: E is the unique improving survivor and is returned. -/
theorem C1_greedy_goal_seeking_witness :
    (GreedyManhattanAgent.decide demoAgent demoObs 0).1
      ∈ improvingMoves demoEnv (0, 0) (0, 1) :=
  ((C1_greedy_goal_seeking demoAgent demoObs 0 (0, 1) rfl (by decide) rfl
    (by decide)).1 (by decide)).2.1

end Warehouse
